import Mathlib

/-!
Verification development for the BlueOS-Dashcam recording orchestrator
(src/video_recorder.py). The orchestrator state, the heartbeat processing,
the space-admission loop, the recording start/stop lifecycle and the
settings-update path are shallowly embedded as executable Lean functions.
The external world (the filesystem polled by shutil.disk_usage and os.stat,
the log folder, the wall clock) is modelled as explicit inputs: free-space
readings are an externally supplied sequence consumed one value per call of
get_free_space_mb, and the video folder contents are a list of files.
-/

/-- The fixed bound on remediation iterations in process_heartbeat
(the loop breaks once count exceeds 10). -/
def SPACE_RETRY_LIMIT : Nat := 10

/-- max_checks in _verify_recording_start. -/
def VERIFY_MAX_CHECKS : Nat := 10

/-- The initial asyncio.sleep(3) grace period in _verify_recording_start. -/
def VERIFY_GRACE_SECONDS : Nat := 3

/-- The asyncio.sleep(3) between checks in _verify_recording_start. -/
def VERIFY_INTERVAL_SECONDS : Nat := 3

/-- The process.wait(timeout=5) bound in stop_recording. -/
def STOP_GRACE_TIMEOUT_SECONDS : Nat := 5

/-- Wall-clock time of verification check number i (seconds after spawn):
the grace period, then one check per interval. -/
def verify_check_time (i : Nat) : Nat :=
  VERIFY_GRACE_SECONDS + VERIFY_INTERVAL_SECONDS * i

/-- One entry of settings["streams"]: name, url and the optional "enabled"
key (none models a JSON object without the key). -/
structure StreamConfig where
  name : String
  url : String
  enabled : Option Bool
deriving Repr, DecidableEq

/-- One value of the recording_processes dict. The subprocess.Popen handle
is identified by the single output file location passed to filesink. -/
structure RecordingProcess where
  outputFile : String
deriving Repr, DecidableEq

/-- One .mp4 file of the video folder: its stem and its st_mtime. -/
structure VideoFile where
  stem : String
  mtime : Nat
deriving Repr, DecidableEq

/-- The external filesystem as the orchestrator observes it: the upcoming
shutil.disk_usage free-space readings (consumed one per call) and the
current *.mp4 contents of the video folder. -/
structure World where
  freeReads : List Nat
  videoFiles : List VideoFile
deriving Repr, DecidableEq

/-- Per-heartbeat environment: the newest .BIN stem of the log folder
(none when the folder has no .BIN files) and the wall-clock timestamp
string used for the output filename. -/
structure SessionEnv where
  latestBinStem : Option String
  timestamp : String
deriving Repr, DecidableEq

/-- The fields of a decoded MAVLink message that process_heartbeat reads;
each optional field models a .get chain returning None when a key is
missing. -/
structure MavMessage where
  msgType : Option String
  autopilotType : Option String
  mavtypeType : Option String
  baseModeBits : Option Nat
deriving Repr, DecidableEq

/-- The VideoRecorder state: settings fields read by the orchestrator, the
recording_processes dict (association list with dict semantics) and the
is_armed flag. -/
structure RecorderState where
  streams : List StreamConfig
  minimum_free_space_mb : Nat
  out_of_space_action : String
  video_folder : String
  recording_processes : List (String × RecordingProcess)
  is_armed : Bool
deriving Repr, DecidableEq

/-- Keys of the recording_processes dict (the active stream names). -/
def RecorderState.activeNames (st : RecorderState) : List String :=
  st.recording_processes.map Prod.fst

/-- Output files owned by active RecordingProcess entries. -/
def RecorderState.activeOutputFiles (st : RecorderState) : List String :=
  st.recording_processes.map (fun p => p.2.outputFile)

/-- Python dict assignment d[k] = v: replace the entry when the key is
present, append it otherwise. -/
def dict_insert (m : List (String × RecordingProcess)) (k : String)
    (v : RecordingProcess) : List (String × RecordingProcess) :=
  if m.any (fun p => p.1 == k) then
    m.map (fun p => if p.1 == k then (k, v) else p)
  else m ++ [(k, v)]

/-- Python dict deletion del d[k]. -/
def dict_remove (m : List (String × RecordingProcess)) (k : String) :
    List (String × RecordingProcess) :=
  m.filter (fun p => p.1 != k)

/-- The full path of a video file inside the video folder. -/
def VideoFile.fullPath (folder : String) (f : VideoFile) : String :=
  folder ++ "/" ++ f.stem ++ ".mp4"

/-- min(video_files, key=st_mtime): first file with the least mtime. -/
def oldest_video : List VideoFile → Option VideoFile
  | [] => none
  | f :: fs => some (fs.foldl (fun acc g => if g.mtime < acc.mtime then g else acc) f)

/-- handle_delete_oldest: glob *.mp4 (= w.videoFiles), unlink the oldest by
mtime if any. Returns the new world and the deleted file. The candidate
set is every .mp4 of the folder; nothing is excluded. -/
def handle_delete_oldest (w : World) : World × Option VideoFile :=
  match oldest_video w.videoFiles with
  | some f => ({ w with videoFiles := w.videoFiles.erase f }, some f)
  | none => (w, none)

/-- get_free_space_mb: shutil.disk_usage(video folder).free // 2^20,
modelled as consuming the next externally supplied reading. -/
def get_free_space_mb (w : World) : Nat × World :=
  (w.freeReads.headD 0, { w with freeReads := w.freeReads.tail })

/-- The characters re.sub replaces in sanitize_filename:
backslash, slash, *, ?, :, double quote, angle brackets, pipe and the
\s class of whitespace. -/
def filename_char_replaced (c : Char) : Bool :=
  c == '\\' || c == '/' || c == '*' || c == '?' || c == ':' || c == '"' ||
  c == '<' || c == '>' || c == '|' ||
  c == ' ' || c == '\t' || c == '\n' || c == '\r' || c == '\x0b' || c == '\x0c'

/-- str.strip('. '): drop leading and trailing dots and spaces. -/
def strip_dot_space (cs : List Char) : List Char :=
  ((cs.dropWhile (fun c => c == '.' || c == ' ')).reverse.dropWhile
    (fun c => c == '.' || c == ' ')).reverse

/-- sanitize_filename: replace unsafe and whitespace characters with
underscores, strip leading and trailing dots and spaces, fall back to
a default token when empty. -/
def sanitize_filename (name : String) : String :=
  let sanitized := name.map (fun c => if filename_char_replaced c then '_' else c)
  let stripped := String.mk (strip_dot_space sanitized.toList)
  if stripped == "" then "unnamed_stream" else stripped

/-- get_next_video_file over the stems of the *.mp4 files: the maximum
integer before the first underscore, plus one, as a string. -/
def get_next_video_file (stems : List String) : String :=
  let max_number := stems.foldl (fun acc stem =>
    if stem.contains '_' then
      match ((stem.splitOn "_").headD "").toInt? with
      | some n => max acc n
      | none => acc
    else acc) (0 : Int)
  toString (max_number + 1)

/-- base_filename of process_heartbeat: get_latest_bin_file, falling back
to get_next_video_file when that is falsy. -/
def compute_base_filename (env : SessionEnv) (w : World) : String :=
  let bin := env.latestBinStem.getD ""
  if bin == "" then get_next_video_file (w.videoFiles.map (fun f => f.stem)) else bin

/-- Signals sent to a recording child process. -/
inductive Sig
  | sigint
  | sigterm
deriving Repr, DecidableEq

/-- stop_recording together with the entry cleanup that the
_monitor_subprocess_output task performs in its finally block once the
child exits and its stdout closes. exit_seconds is how long the child
takes to exit after SIGINT; process.wait(timeout=5) succeeds iff it is
at most the 5 second bound, otherwise process.terminate() plus a second
wait follows. Returns the state at the next stable point and the list of
signals sent. -/
def stop_recording_run (st : RecorderState) (name : String) (exit_seconds : Nat) :
    RecorderState × List Sig :=
  if st.recording_processes.any (fun p => p.1 == name) then
    ({ st with recording_processes := dict_remove st.recording_processes name },
      if exit_seconds ≤ STOP_GRACE_TIMEOUT_SECONDS then [Sig.sigint]
      else [Sig.sigint, Sig.sigterm])
  else (st, [])

/-- The state effect of stop_recording (independent of how fast the child
exits). -/
def stop_recording (st : RecorderState) (name : String) : RecorderState :=
  (stop_recording_run st name 0).1

/-- handle_space_issue: action "stop" stops every current recording
(snapshot of the keys, then stop each); action "delete_oldest_video"
deletes the oldest video; any other action does nothing. -/
def handle_space_issue (st : RecorderState) (w : World) : RecorderState × World :=
  if st.out_of_space_action == "stop" then
    ((st.recording_processes.map Prod.fst).foldl stop_recording st, w)
  else if st.out_of_space_action == "delete_oldest_video" then
    (st, (handle_delete_oldest w).1)
  else (st, w)

/-- The while loop of process_heartbeat guarding one stream: re-read free
space; while it is below the minimum, run handle_space_issue, at most
budget more times (budget = 10 - count; the source breaks once count
exceeds 10). Returns the state, the world and the number of
handle_space_issue invocations performed. -/
def space_retry_loop (st : RecorderState) (w : World) : Nat → RecorderState × World × Nat
  | 0 =>
    let q := get_free_space_mb w
    if q.1 < st.minimum_free_space_mb then (st, q.2, 0) else (st, q.2, 0)
  | b + 1 =>
    let q := get_free_space_mb w
    if q.1 < st.minimum_free_space_mb then
      let p := handle_space_issue st q.2
      let r := space_retry_loop p.1 p.2 b
      (r.1, r.2.1, r.2.2 + 1)
    else (st, q.2, 0)

/-- start_recording: build the sanitized, timestamped output location
(the %02d marker is removed again for the single-file filesink), spawn
the pipeline and register the RecordingProcess under the stream name. -/
def start_recording (st : RecorderState) (stream : StreamConfig)
    (base_filename timestamp : String) : RecorderState :=
  let sanitized_stream_name := sanitize_filename stream.name
  let base_output := base_filename ++ "_" ++ sanitized_stream_name ++ "_" ++ timestamp
  let output_file := st.video_folder ++ "/" ++ base_output ++ ".mp4"
  { st with recording_processes :=
      dict_insert st.recording_processes stream.name { outputFile := output_file } }

/-- The per-stream body of the arm branch of process_heartbeat: skip
disabled streams; otherwise run the bounded space-remediation loop,
re-check free space, and start the recording when the check passes.
The Bool reports whether start_recording ran for this stream. -/
def evaluate_stream (st : RecorderState) (w : World) (stream : StreamConfig)
    (base_filename timestamp : String) : RecorderState × World × Bool :=
  if stream.enabled.getD false = true then
    let p := space_retry_loop st w SPACE_RETRY_LIMIT
    let q := get_free_space_mb p.2.1
    if p.1.minimum_free_space_mb ≤ q.1 then
      (start_recording p.1 stream base_filename timestamp, q.2, true)
    else (p.1, q.2, false)
  else (st, w, false)

/-- The for loop of the arm branch over settings["streams"], in registry
order; also reports the names for which start_recording ran. -/
def record_streams (st : RecorderState) (w : World) (streams : List StreamConfig)
    (base_filename timestamp : String) : RecorderState × World × List String :=
  match streams with
  | [] => (st, w, [])
  | stream :: rest =>
    let e := evaluate_stream st w stream base_filename timestamp
    let r := record_streams e.1 e.2.1 rest base_filename timestamp
    (r.1, r.2.1, (if e.2.2 then [stream.name] else []) ++ r.2.2)

/-- The valid_autopilots list of process_heartbeat. -/
def valid_autopilots : List String :=
  ["MAV_AUTOPILOT_GENERIC", "MAV_AUTOPILOT_ARDUPILOTMEGA", "MAV_AUTOPILOT_PX4"]

/-- The vehicle_types list of process_heartbeat. -/
def vehicle_types : List String :=
  ["MAV_TYPE_FIXED_WING", "MAV_TYPE_QUADROTOR", "MAV_TYPE_HELICOPTER",
   "MAV_TYPE_GROUND_ROVER", "MAV_TYPE_SUBMARINE", "MAV_TYPE_SURFACE_BOAT",
   "MAV_TYPE_VTOL"]

/-- bool(base_mode & 0x80), with the .get default of 0 for missing bits. -/
def armed_bit (msg : MavMessage) : Bool :=
  (msg.baseModeBits.getD 0) &&& 0x80 != 0

/-- process_heartbeat: filter non-HEARTBEAT messages, non-autopilot
components and non-vehicle types; extract the armed bit; on a
false-to-true edge set is_armed, compute the base filename and start the
enabled streams; on a true-to-false edge clear is_armed and stop every
recording; otherwise do nothing. -/
def process_heartbeat (st : RecorderState) (w : World) (env : SessionEnv)
    (msg : MavMessage) : RecorderState × World :=
  if msg.msgType ≠ some "HEARTBEAT" then (st, w)
  else if msg.autopilotType ∉ valid_autopilots.map some then (st, w)
  else if msg.mavtypeType ∉ vehicle_types.map some then (st, w)
  else
    let is_armed := armed_bit msg
    if is_armed && !st.is_armed then
      let st1 := { st with is_armed := true }
      let base_filename := compute_base_filename env w
      if base_filename ≠ "" then
        let r := record_streams st1 w st1.streams base_filename env.timestamp
        (r.1, r.2.1)
      else (st1, w)
    else if !is_armed && st.is_armed then
      let st1 := { st with is_armed := false }
      ((st1.recording_processes.map Prod.fst).foldl stop_recording st1, w)
    else (st, w)

/-- Run a sequence of heartbeats through process_heartbeat, in arrival
order, one at a time. -/
def run_heartbeats (st : RecorderState) (w : World) :
    List (SessionEnv × MavMessage) → RecorderState × World
  | [] => (st, w)
  | (env, msg) :: rest =>
    let p := process_heartbeat st w env msg
    run_heartbeats p.1 p.2 rest

/-- The state of the VideoRecorder constructor: empty recording_processes
dict and is_armed = False. -/
def initial_state (streams : List StreamConfig) (min_free : Nat)
    (action folder : String) : RecorderState :=
  { streams := streams
    minimum_free_space_mb := min_free
    out_of_space_action := action
    video_folder := folder
    recording_processes := []
    is_armed := false }

/-- The inner loop of _verify_recording_start: from check index i with the
given number of checks remaining, return the index of the first check at
which the output file exists with size above zero, and the number of
checks performed. obs i is the observation of the file at check i
(none: missing, some n: present with size n). -/
def verify_go (obs : Nat → Option Nat) (i : Nat) : Nat → Option Nat × Nat
  | 0 => (none, 0)
  | r + 1 =>
    if 0 < (obs i).getD 0 then (some i, 1)
    else
      let p := verify_go obs (i + 1) r
      (p.1, p.2 + 1)

/-- _verify_recording_start after the spawn: run up to VERIFY_MAX_CHECKS
checks; on success return with no state change; when every check is
exhausted, stop the recording if the stream still has an entry. The Bool
reports whether the child was stopped because verification failed. -/
def verify_recording_start (st : RecorderState) (name : String)
    (obs : Nat → Option Nat) : RecorderState × Bool :=
  match (verify_go obs 0 VERIFY_MAX_CHECKS).1 with
  | some _ => (st, false)
  | none =>
    if st.recording_processes.any (fun p => p.1 == name) then
      (stop_recording st name, true)
    else (st, false)

/-- The "general" part of an /api/settings POST body (only the settings
keys the orchestrator reads; log_folder and video_folder are read-only
and skipped by the handler). -/
structure GeneralUpdate where
  minimum_free_space_mb : Option Nat
  out_of_space_action : Option String
deriving Repr, DecidableEq

/-- An /api/settings POST body: optional general settings and an optional
full replacement of the streams array. -/
structure SettingsUpdate where
  general : Option GeneralUpdate
  streams : Option (List StreamConfig)
deriving Repr, DecidableEq

/-- handle_settings_update: apply general settings; when a streams array is
given, stop recordings only for stream names that disappear, replace the
array, and default a missing enabled key to true. -/
def handle_settings_update (st : RecorderState) (data : SettingsUpdate) :
    RecorderState :=
  let st1 :=
    match data.general with
    | some g =>
      { st with
        minimum_free_space_mb := g.minimum_free_space_mb.getD st.minimum_free_space_mb
        out_of_space_action := g.out_of_space_action.getD st.out_of_space_action }
    | none => st
  match data.streams with
  | some newStreams =>
    let current_names := st1.streams.map (fun s => s.name)
    let new_names := newStreams.map (fun s => s.name)
    let st2 := (current_names.filter (fun n => !new_names.contains n)).foldl
      stop_recording st1
    { st2 with streams := newStreams.map (fun s =>
        if s.enabled.isNone then { s with enabled := some true } else s) }
  | none => st1

/-- Does the needle begin the haystack. -/
def list_begins_with : List Char → List Char → Bool
  | _, [] => true
  | [], _ :: _ => false
  | a :: as, b :: bs => a == b && list_begins_with as bs

/-- Does the needle occur anywhere in the list. -/
def has_sub_aux (needle : List Char) : List Char → Bool
  | [] => list_begins_with [] needle
  | c :: cs => list_begins_with (c :: cs) needle || has_sub_aux needle cs

/-- Python substring containment on strings. -/
def string_contains_sub (hay needle : String) : Bool :=
  has_sub_aux needle.toList hay.toList

/-- One stream reported by the MAVLink camera manager: its name and its
first endpoint. -/
structure RawCameraStream where
  name : String
  endpoint : String
deriving Repr, DecidableEq

/-- Python str.replace on character lists: replace non-overlapping
occurrences of the nonempty pattern left to right. The fuel argument (the
input length at the call site) bounds the recursion. -/
def replace_list (pat rep : List Char) : Nat → List Char → List Char
  | _, [] => []
  | 0, l => l
  | fuel + 1, c :: cs =>
    if list_begins_with (c :: cs) pat && !pat.isEmpty then
      rep ++ replace_list pat rep fuel (List.drop (pat.length - 1) cs)
    else c :: replace_list pat rep fuel cs

/-- Python str.replace on strings. -/
def str_replace (s pat rep : String) : String :=
  String.mk (replace_list pat.toList rep.toList s.length s.toList)

/-- Python str.lower (ASCII case folding suffices for the urls here). -/
def str_to_lower (s : String) : String :=
  String.mk (s.toList.map Char.toLower)

/-- The url rewriting applied by fetch_camera_streams. -/
def rewrite_stream_url (url : String) : String :=
  str_replace (str_replace (str_replace (str_replace url
    "rtspu://" "rtsp://") "rtspt://" "rtsp://") "rtsph://" "rtsp://")
    "0.0.0.0" "blueos.internal"

/-- fetch_camera_streams: keep endpoints containing "rtsp" (case
insensitive), rewrite the url, and mark each resulting stream enabled. -/
def fetch_camera_streams (raws : List RawCameraStream) : List StreamConfig :=
  (raws.filter (fun r => string_contains_sub (str_to_lower r.endpoint) "rtsp")).map
    (fun r => { name := r.name, url := rewrite_stream_url r.endpoint,
                enabled := some true })

/-- Update the url of the first stream with the given name. -/
def set_url_first : List StreamConfig → String → String → List StreamConfig
  | [], _, _ => []
  | e :: rest, n, u =>
    if e.name == n then { e with url := u } :: rest
    else e :: set_url_first rest n u

/-- update_streams_from_camera_manager: append camera streams whose name is
new (relative to the snapshot of existing names), refresh the url of the
first match otherwise, never touching the enabled flag of an existing
stream. -/
def update_streams_from_camera_manager (st : RecorderState)
    (raws : List RawCameraStream) : RecorderState :=
  let camera_streams := fetch_camera_streams raws
  let existing_names := st.streams.map (fun s => s.name)
  let streams := camera_streams.foldl (fun acc s =>
    if existing_names.contains s.name then set_url_first acc s.name s.url
    else acc ++ [s]) st.streams
  { st with streams := streams }

/-- Two states agree on everything except the recording_processes dict:
the recording lifecycle operations inside one heartbeat touch only that
dict. -/
def config_eq (a b : RecorderState) : Prop :=
  a.streams = b.streams ∧
  a.minimum_free_space_mb = b.minimum_free_space_mb ∧
  a.out_of_space_action = b.out_of_space_action ∧
  a.video_folder = b.video_folder ∧
  a.is_armed = b.is_armed

/-- Fixture: an enabled stream named camA. -/
def fixStreamA : StreamConfig := { name := "camA", url := "rtsp://a", enabled := some true }

/-- Fixture: an enabled stream named camB. -/
def fixStreamB : StreamConfig := { name := "camB", url := "rtsp://b", enabled := some true }

/-- Fixture: a disabled stream named camC. -/
def fixStreamC : StreamConfig := { name := "camC", url := "rtsp://c", enabled := some false }

/-- Fixture: a stream whose settings entry has no enabled key. -/
def fixStreamNoFlag : StreamConfig := { name := "camD", url := "rtsp://d", enabled := none }

/-- Fixture: an armed state in which cam1 is recording to a file inside the
video folder. -/
def fixRecordingState : RecorderState :=
  { streams := [{ name := "cam1", url := "rtsp://cam1", enabled := some true }]
    minimum_free_space_mb := 1024
    out_of_space_action := "delete_oldest_video"
    video_folder := "/usr/blueos/videos"
    recording_processes :=
      [("cam1", { outputFile := "/usr/blueos/videos/1_cam1_20250101-000000.mp4" })]
    is_armed := true }

/-- Fixture: the video folder holds exactly the in-progress output of cam1,
which is therefore the oldest .mp4 there. -/
def fixWorldActiveOnly : World :=
  { freeReads := [500], videoFiles := [{ stem := "1_cam1_20250101-000000", mtime := 77 }] }

/-- Fixture: a disarmed clean state with two enabled streams and the
out_of_space_action "stop". -/
def fixStopActionState : RecorderState :=
  { streams := [fixStreamA, fixStreamB]
    minimum_free_space_mb := 1024
    out_of_space_action := "stop"
    video_folder := "/v"
    recording_processes := []
    is_armed := false }

/-- Fixture: free space is sufficient while camA is evaluated, drops below
the minimum when camB is evaluated, and recovers after one remediation. -/
def fixWorldDrop : World :=
  { freeReads := [2000, 2000, 500, 2000, 2000], videoFiles := [] }

/-- Fixture: fixStopActionState with the delete_oldest_video action. -/
def fixDeleteActionState : RecorderState :=
  { fixStopActionState with out_of_space_action := "delete_oldest_video" }

/-- Fixture: ample free space on every reading. -/
def fixWorldAmple : World :=
  { freeReads := [2000, 2000, 2000, 2000, 2000, 2000], videoFiles := [] }

/-- Fixture: every free-space reading is zero. -/
def fixWorldEmptyDisk : World :=
  { freeReads := List.replicate 16 0, videoFiles := [] }

/-- Fixture: an arming heartbeat from an ArduPilot submarine with mode bit
7 set. -/
def fixMsgArm : MavMessage :=
  { msgType := some "HEARTBEAT"
    autopilotType := some "MAV_AUTOPILOT_ARDUPILOTMEGA"
    mavtypeType := some "MAV_TYPE_SUBMARINE"
    baseModeBits := some 129 }

/-- Fixture: the same heartbeat with the armed bit clear. -/
def fixMsgDisarm : MavMessage :=
  { fixMsgArm with baseModeBits := some 1 }

/-- Fixture: session environment with a flight-log stem. -/
def fixEnv : SessionEnv := { latestBinStem := some "LOG42", timestamp := "20250101-010101" }

/-- Fixture: a settings update that keeps cam1 but flips it to
enabled=false. -/
def fixDisableUpdate : SettingsUpdate :=
  { general := none
    streams := some [{ name := "cam1", url := "rtsp://cam1", enabled := some false }] }

/-- Fixture: a settings update whose single stream entry lacks the enabled
key. -/
def fixNoFlagUpdate : SettingsUpdate :=
  { general := none, streams := some [fixStreamNoFlag] }

/-- Fixture: one camera-manager stream with an rtspu endpoint. -/
def fixRaws : List RawCameraStream :=
  [{ name := "CamX", endpoint := "rtspu://0.0.0.0:8554/video" }]

/-- Fixture: file observations that never report data. -/
def fixObsNever : Nat → Option Nat := fun _ => none

theorem any_key_iff (m : List (String × RecordingProcess)) (k : String) :
    m.any (fun p => p.1 == k) = true ↔ k ∈ m.map Prod.fst := by
  rw [List.any_eq_true]
  constructor
  · rintro ⟨p, hp, he⟩
    rw [beq_iff_eq] at he
    exact he ▸ List.mem_map_of_mem Prod.fst hp
  · intro hm
    rcases List.mem_map.mp hm with ⟨p, hp, he⟩
    exact ⟨p, hp, by rw [beq_iff_eq]; exact he⟩

theorem dict_insert_keys (m : List (String × RecordingProcess)) (k : String)
    (v : RecordingProcess) :
    (dict_insert m k v).map Prod.fst =
      if m.any (fun p => p.1 == k) then m.map Prod.fst
      else m.map Prod.fst ++ [k] := by
  unfold dict_insert
  split
  · rw [List.map_map]
    apply List.map_congr_left
    intro p _
    by_cases hc : p.1 = k <;> simp [hc]
  · simp

theorem dict_remove_keys (m : List (String × RecordingProcess)) (k : String) :
    (dict_remove m k).map Prod.fst = (m.map Prod.fst).filter (fun s => s != k) := by
  unfold dict_remove
  induction m with
  | nil => rfl
  | cons p rest ih =>
    simp only [List.map_cons, List.filter_cons]
    by_cases hc : p.1 = k <;> simp [hc, ih]

theorem mem_dict_insert_keys (m : List (String × RecordingProcess)) (k : String)
    (v : RecordingProcess) (name : String) :
    name ∈ (dict_insert m k v).map Prod.fst ↔ name = k ∨ name ∈ m.map Prod.fst := by
  rw [dict_insert_keys]
  split
  · rename_i hany
    constructor
    · exact fun h => Or.inr h
    · intro h
      rcases h with h | h
      · rw [h]
        exact (any_key_iff _ _).mp hany
      · exact h
  · simp [or_comm]

theorem dict_insert_nodup (m : List (String × RecordingProcess)) (k : String)
    (v : RecordingProcess) (h : (m.map Prod.fst).Nodup) :
    ((dict_insert m k v).map Prod.fst).Nodup := by
  rw [dict_insert_keys]
  split
  · exact h
  · rename_i hany
    have hk : k ∉ m.map Prod.fst := fun hmem =>
      hany ((any_key_iff m k).mpr hmem)
    simp [List.nodup_append, h, hk]

theorem dict_remove_nodup (m : List (String × RecordingProcess)) (k : String)
    (h : (m.map Prod.fst).Nodup) : ((dict_remove m k).map Prod.fst).Nodup := by
  rw [dict_remove_keys]
  exact List.Nodup.sublist (List.filter_sublist _) h

theorem stop_recording_def (st : RecorderState) (name : String) :
    stop_recording st name =
      if st.recording_processes.any (fun p => p.1 == name) then
        { st with recording_processes := dict_remove st.recording_processes name }
      else st := by
  unfold stop_recording stop_recording_run
  split <;> rfl

theorem stop_recording_run_fst (st : RecorderState) (name : String)
    (exit_seconds : Nat) :
    (stop_recording_run st name exit_seconds).1 = stop_recording st name := by
  rw [stop_recording_def]
  unfold stop_recording_run
  split <;> rfl

theorem stop_recording_not_mem (st : RecorderState) (name : String) :
    name ∉ (stop_recording st name).activeNames := by
  rw [stop_recording_def]
  split
  · intro hmem
    simp only [RecorderState.activeNames] at hmem
    rw [dict_remove_keys] at hmem
    have := List.of_mem_filter hmem
    simp at this
  · rename_i hany
    intro hmem
    exact hany ((any_key_iff _ _).mpr hmem)

theorem stop_recording_nodup (st : RecorderState) (name : String)
    (h : st.activeNames.Nodup) : (stop_recording st name).activeNames.Nodup := by
  rw [stop_recording_def]
  split
  · exact dict_remove_nodup _ _ h
  · exact h

theorem start_recording_nodup (st : RecorderState) (stream : StreamConfig)
    (b t : String) (h : st.activeNames.Nodup) :
    (start_recording st stream b t).activeNames.Nodup := by
  simp only [start_recording]
  exact dict_insert_nodup _ _ _ h

theorem foldl_stop_nodup (names : List String) (st : RecorderState)
    (h : st.activeNames.Nodup) : (names.foldl stop_recording st).activeNames.Nodup := by
  induction names generalizing st with
  | nil => exact h
  | cons n rest ih => exact ih _ (stop_recording_nodup st n h)

theorem handle_space_issue_nodup (st : RecorderState) (w : World)
    (h : st.activeNames.Nodup) : (handle_space_issue st w).1.activeNames.Nodup := by
  unfold handle_space_issue
  split
  · exact foldl_stop_nodup _ _ h
  · split <;> exact h

theorem space_retry_loop_zero (st : RecorderState) (w : World) :
    space_retry_loop st w 0 = (st, { w with freeReads := w.freeReads.tail }, 0) := by
  simp [space_retry_loop, get_free_space_mb]

theorem space_retry_loop_succ (st : RecorderState) (w : World) (b : Nat) :
    space_retry_loop st w (b + 1) =
      if w.freeReads.headD 0 < st.minimum_free_space_mb then
        let p := handle_space_issue st { w with freeReads := w.freeReads.tail }
        let r := space_retry_loop p.1 p.2 b
        (r.1, r.2.1, r.2.2 + 1)
      else (st, { w with freeReads := w.freeReads.tail }, 0) := by
  simp only [space_retry_loop, get_free_space_mb]

theorem space_retry_loop_nodup (budget : Nat) (st : RecorderState) (w : World)
    (h : st.activeNames.Nodup) :
    (space_retry_loop st w budget).1.activeNames.Nodup := by
  induction budget generalizing st w with
  | zero =>
    rw [space_retry_loop_zero]
    exact h
  | succ b ih =>
    rw [space_retry_loop_succ]
    split
    · exact ih _ _ (handle_space_issue_nodup _ _ h)
    · exact h

theorem evaluate_stream_nodup (st : RecorderState) (w : World)
    (stream : StreamConfig) (b t : String) (h : st.activeNames.Nodup) :
    (evaluate_stream st w stream b t).1.activeNames.Nodup := by
  simp only [evaluate_stream]
  split
  · split
    · exact start_recording_nodup _ _ _ _ (space_retry_loop_nodup _ _ _ h)
    · exact space_retry_loop_nodup _ _ _ h
  · exact h

theorem record_streams_nodup (streams : List StreamConfig) (st : RecorderState)
    (w : World) (b t : String) (h : st.activeNames.Nodup) :
    (record_streams st w streams b t).1.activeNames.Nodup := by
  induction streams generalizing st w with
  | nil => exact h
  | cons s rest ih =>
    simp only [record_streams]
    exact ih _ _ (evaluate_stream_nodup _ _ _ _ _ h)

theorem process_heartbeat_nodup (st : RecorderState) (w : World)
    (env : SessionEnv) (msg : MavMessage) (h : st.activeNames.Nodup) :
    (process_heartbeat st w env msg).1.activeNames.Nodup := by
  simp only [process_heartbeat]
  split
  · exact h
  split
  · exact h
  split
  · exact h
  split
  · split
    · exact record_streams_nodup _ _ _ _ _ h
    · exact h
  split
  · exact foldl_stop_nodup _ _ h
  · exact h

theorem run_heartbeats_nodup (msgs : List (SessionEnv × MavMessage))
    (st : RecorderState) (w : World) (h : st.activeNames.Nodup) :
    (run_heartbeats st w msgs).1.activeNames.Nodup := by
  induction msgs generalizing st w with
  | nil => exact h
  | cons p rest ih =>
    simp only [run_heartbeats]
    exact ih _ _ (process_heartbeat_nodup _ _ _ _ h)

theorem config_eq_refl (a : RecorderState) : config_eq a a :=
  ⟨rfl, rfl, rfl, rfl, rfl⟩

theorem config_eq_trans (a b c : RecorderState) (h1 : config_eq a b)
    (h2 : config_eq b c) : config_eq a c := by
  obtain ⟨x1, x2, x3, x4, x5⟩ := h1
  obtain ⟨y1, y2, y3, y4, y5⟩ := h2
  exact ⟨x1.trans y1, x2.trans y2, x3.trans y3, x4.trans y4, x5.trans y5⟩

theorem stop_recording_config (st : RecorderState) (name : String) :
    config_eq st (stop_recording st name) := by
  rw [stop_recording_def]
  split
  · exact ⟨rfl, rfl, rfl, rfl, rfl⟩
  · exact config_eq_refl st

theorem start_recording_config (st : RecorderState) (stream : StreamConfig)
    (b t : String) : config_eq st (start_recording st stream b t) :=
  ⟨rfl, rfl, rfl, rfl, rfl⟩

theorem foldl_stop_config (names : List String) (st : RecorderState) :
    config_eq st (names.foldl stop_recording st) := by
  induction names generalizing st with
  | nil => exact config_eq_refl st
  | cons n rest ih =>
    exact config_eq_trans _ _ _ (stop_recording_config st n) (ih _)

theorem handle_space_issue_config (st : RecorderState) (w : World) :
    config_eq st (handle_space_issue st w).1 := by
  unfold handle_space_issue
  split
  · exact foldl_stop_config _ _
  · split <;> exact config_eq_refl st

theorem space_retry_loop_config (budget : Nat) (st : RecorderState) (w : World) :
    config_eq st (space_retry_loop st w budget).1 := by
  induction budget generalizing st w with
  | zero =>
    rw [space_retry_loop_zero]
    exact config_eq_refl st
  | succ b ih =>
    simp only [space_retry_loop, get_free_space_mb]
    split
    · exact config_eq_trans _ _ _ (handle_space_issue_config _ _) (ih _ _)
    · exact config_eq_refl st

theorem evaluate_stream_config (st : RecorderState) (w : World)
    (stream : StreamConfig) (b t : String) :
    config_eq st (evaluate_stream st w stream b t).1 := by
  simp only [evaluate_stream]
  split
  · split
    · exact config_eq_trans _ _ _ (space_retry_loop_config _ _ _)
        (start_recording_config _ _ _ _)
    · exact space_retry_loop_config _ _ _
  · exact config_eq_refl st

theorem record_streams_config (streams : List StreamConfig) (st : RecorderState)
    (w : World) (b t : String) :
    config_eq st (record_streams st w streams b t).1 := by
  induction streams generalizing st w with
  | nil => exact config_eq_refl st
  | cons s rest ih =>
    simp only [record_streams]
    exact config_eq_trans _ _ _ (evaluate_stream_config _ _ _ _ _) (ih _ _)

theorem handle_space_issue_freeReads (st : RecorderState) (w : World) :
    (handle_space_issue st w).2.freeReads = w.freeReads := by
  unfold handle_space_issue
  split
  · rfl
  split
  · unfold handle_delete_oldest
    split <;> rfl
  · rfl

theorem space_retry_loop_calls_le (budget : Nat) (st : RecorderState) (w : World) :
    (space_retry_loop st w budget).2.2 ≤ budget := by
  induction budget generalizing st w with
  | zero =>
    rw [space_retry_loop_zero]
  | succ b ih =>
    simp only [space_retry_loop, get_free_space_mb]
    split
    · exact Nat.succ_le_succ (ih _ _)
    · exact Nat.zero_le _

theorem space_retry_loop_reads (budget : Nat) (st : RecorderState) (w : World) :
    (space_retry_loop st w budget).2.1.freeReads =
      w.freeReads.drop ((space_retry_loop st w budget).2.2 + 1) := by
  induction budget generalizing st w with
  | zero =>
    rw [space_retry_loop_zero]
    simp [List.drop_one]
  | succ b ih =>
    simp only [space_retry_loop, get_free_space_mb]
    split
    · have h1 := ih (handle_space_issue st { w with freeReads := w.freeReads.tail }).1
        (handle_space_issue st { w with freeReads := w.freeReads.tail }).2
      rw [handle_space_issue_freeReads] at h1
      simp only at h1
      simp only [h1]
      rw [show w.freeReads.tail = w.freeReads.drop 1 from (List.drop_one w.freeReads).symm,
        List.drop_drop]
      congr 1
      omega
    · simp [List.drop_one]

theorem start_recording_mem (st : RecorderState) (stream : StreamConfig)
    (b t : String) (name : String) :
    name ∈ (start_recording st stream b t).activeNames ↔
      name = stream.name ∨ name ∈ st.activeNames := by
  simp only [start_recording, RecorderState.activeNames]
  exact mem_dict_insert_keys _ _ _ _

theorem handle_space_issue_delete_fst (st : RecorderState) (w : World)
    (h : st.out_of_space_action = "delete_oldest_video") :
    (handle_space_issue st w).1 = st := by
  unfold handle_space_issue
  rw [h]
  rfl

theorem space_retry_loop_delete_fst (budget : Nat) (st : RecorderState) (w : World)
    (h : st.out_of_space_action = "delete_oldest_video") :
    (space_retry_loop st w budget).1 = st := by
  induction budget generalizing st w with
  | zero =>
    rw [space_retry_loop_zero]
  | succ b ih =>
    simp only [space_retry_loop, get_free_space_mb]
    split
    · rw [handle_space_issue_delete_fst st _ h]
      exact ih st _ h
    · rfl

theorem evaluate_stream_action (st : RecorderState) (w : World)
    (stream : StreamConfig) (b t : String) :
    (evaluate_stream st w stream b t).1.out_of_space_action =
      st.out_of_space_action :=
  ((evaluate_stream_config st w stream b t).2.2.1).symm

theorem evaluate_stream_mem_delete (st : RecorderState) (w : World)
    (stream : StreamConfig) (b t : String) (name : String)
    (h : st.out_of_space_action = "delete_oldest_video")
    (hmem : name ∈ st.activeNames) :
    name ∈ (evaluate_stream st w stream b t).1.activeNames := by
  simp only [evaluate_stream]
  split
  · rw [space_retry_loop_delete_fst _ _ _ h]
    split
    · exact (start_recording_mem _ _ _ _ _).mpr (Or.inr hmem)
    · exact hmem
  · exact hmem

theorem record_streams_mono_delete (streams : List StreamConfig)
    (st : RecorderState) (w : World) (b t : String) (name : String)
    (h : st.out_of_space_action = "delete_oldest_video")
    (hmem : name ∈ st.activeNames) :
    name ∈ (record_streams st w streams b t).1.activeNames := by
  induction streams generalizing st w with
  | nil => exact hmem
  | cons s rest ih =>
    simp only [record_streams]
    exact ih _ _ ((evaluate_stream_action st w s b t).trans h)
      (evaluate_stream_mem_delete _ _ _ _ _ _ h hmem)

theorem record_streams_append (l1 l2 : List StreamConfig) (st : RecorderState)
    (w : World) (b t : String) :
    record_streams st w (l1 ++ l2) b t =
      ((record_streams (record_streams st w l1 b t).1
          (record_streams st w l1 b t).2.1 l2 b t).1,
       (record_streams (record_streams st w l1 b t).1
          (record_streams st w l1 b t).2.1 l2 b t).2.1,
       (record_streams st w l1 b t).2.2 ++
         (record_streams (record_streams st w l1 b t).1
            (record_streams st w l1 b t).2.1 l2 b t).2.2) := by
  induction l1 generalizing st w with
  | nil => simp [record_streams]
  | cons s rest ih =>
    simp only [List.cons_append, record_streams, List.append_eq]
    rw [ih]
    simp [List.append_assoc]

theorem evaluate_stream_started_enabled (st : RecorderState) (w : World)
    (stream : StreamConfig) (b t : String)
    (h : (evaluate_stream st w stream b t).2.2 = true) :
    stream.enabled.getD false = true := by
  by_contra hne
  simp only [evaluate_stream] at h
  rw [if_neg hne] at h
  exact Bool.false_ne_true h

theorem record_streams_started_enabled (streams : List StreamConfig)
    (st : RecorderState) (w : World) (b t : String) (name : String)
    (hmem : name ∈ (record_streams st w streams b t).2.2) :
    ∃ s ∈ streams, s.name = name ∧ s.enabled.getD false = true := by
  induction streams generalizing st w with
  | nil => simp [record_streams] at hmem
  | cons s rest ih =>
    simp only [record_streams] at hmem
    rw [List.mem_append] at hmem
    rcases hmem with hmem | hmem
    · split at hmem
      · rename_i hstart
        rw [List.mem_singleton] at hmem
        exact ⟨s, List.mem_cons_self s rest,
          hmem.symm, evaluate_stream_started_enabled _ _ _ _ _ hstart⟩
      · simp at hmem
    · obtain ⟨s2, hs2, he⟩ := ih _ _ hmem
      exact ⟨s2, List.mem_cons_of_mem s hs2, he⟩

theorem record_streams_mem_delete (streams : List StreamConfig)
    (st : RecorderState) (w : World) (b t : String) (name : String)
    (h : st.out_of_space_action = "delete_oldest_video") :
    name ∈ (record_streams st w streams b t).1.activeNames ↔
      name ∈ st.activeNames ∨ name ∈ (record_streams st w streams b t).2.2 := by
  induction streams generalizing st w with
  | nil => simp [record_streams]
  | cons s rest ih =>
    simp only [record_streams]
    rw [ih _ _ ((evaluate_stream_action st w s b t).trans h), List.mem_append]
    simp only [evaluate_stream]
    split
    · rw [space_retry_loop_delete_fst _ _ _ h]
      split
      · simp only [start_recording_mem]
        constructor
        · rintro ((h1 | h1) | h1)
          · exact Or.inr (Or.inl (List.mem_singleton.mpr h1))
          · exact Or.inl h1
          · exact Or.inr (Or.inr h1)
        · rintro (h1 | (h1 | h1))
          · exact Or.inl (Or.inr h1)
          · exact Or.inl (Or.inl (List.mem_singleton.mp h1))
          · exact Or.inr h1
      · simp
    · simp

theorem armed_bit_testBit (msg : MavMessage) :
    armed_bit msg = (msg.baseModeBits.getD 0).testBit 7 := by
  unfold armed_bit
  have h := Nat.and_two_pow (msg.baseModeBits.getD 0) 7
  norm_num at h
  cases hb : (msg.baseModeBits.getD 0).testBit 7 <;> rw [hb] at h <;> simp [h]

theorem verify_go_fail (obs : Nat → Option Nat) (r i0 : Nat)
    (h : ∀ j, j < r → (obs (i0 + j)).getD 0 = 0) :
    verify_go obs i0 r = (none, r) := by
  induction r generalizing i0 with
  | zero => rfl
  | succ r ih =>
    have h0 : (obs i0).getD 0 = 0 := by
      have := h 0 (Nat.succ_pos r)
      simpa using this
    simp only [verify_go, h0]
    rw [ih (i0 + 1) (fun j hj => by
      have := h (j + 1) (Nat.succ_lt_succ hj)
      rw [show i0 + 1 + j = i0 + (j + 1) by omega]
      exact this)]
    simp

theorem verify_go_first_success (obs : Nat → Option Nat) (r i0 k : Nat)
    (hk : k < r) (hs : 0 < (obs (i0 + k)).getD 0)
    (hf : ∀ j, j < k → (obs (i0 + j)).getD 0 = 0) :
    verify_go obs i0 r = (some (i0 + k), k + 1) := by
  induction r generalizing i0 k with
  | zero => omega
  | succ r ih =>
    match k with
    | 0 =>
      simp only [Nat.add_zero] at hs
      simp [verify_go, hs]
    | k + 1 =>
      have h0 : (obs i0).getD 0 = 0 := by
        have := hf 0 (Nat.succ_pos k)
        simpa using this
      simp only [verify_go, h0]
      rw [ih (i0 + 1) k (Nat.lt_of_succ_lt_succ hk)
        (by rw [show i0 + 1 + k = i0 + (k + 1) by omega]; exact hs)
        (fun j hj => by
          rw [show i0 + 1 + j = i0 + (j + 1) by omega]
          exact hf (j + 1) (Nat.succ_lt_succ hj))]
      rw [if_neg (lt_irrefl 0)]
      simp only [Prod.mk.injEq, Option.some.injEq]
      constructor
      · omega
      · trivial

theorem verify_go_checks_le (obs : Nat → Option Nat) (r i0 : Nat) :
    (verify_go obs i0 r).2 ≤ r := by
  induction r generalizing i0 with
  | zero => exact Nat.le_refl 0
  | succ r ih =>
    simp only [verify_go]
    split
    · exact Nat.succ_le_succ (Nat.zero_le r)
    · exact Nat.succ_le_succ (ih (i0 + 1))

/-- Claim C1: for every reachable orchestrator state (any heartbeat
sequence run from the constructor state) and every stream name, at most
one RecordingProcess entry exists for that name, including under rapid
arm and disarm sequences (every prefix of a run is itself a run). -/
theorem recording_processes_at_most_one_per_name
    (streams : List StreamConfig) (min_free : Nat) (action folder : String)
    (w : World) (msgs : List (SessionEnv × MavMessage)) (name : String) :
    ((run_heartbeats (initial_state streams min_free action folder) w
        msgs).1.activeNames).count name ≤ 1 := by
  have h0 : (initial_state streams min_free action folder).activeNames.Nodup := by
    simp [initial_state, RecorderState.activeNames]
  exact List.nodup_iff_count_le_one.mp (run_heartbeats_nodup msgs _ w h0) name

theorem heartbeat_noop_of_equal_bit (st : RecorderState) (w : World)
    (env : SessionEnv) (msg : MavMessage) (h : armed_bit msg = st.is_armed) :
    process_heartbeat st w env msg = (st, w) := by
  simp only [process_heartbeat]
  split
  · rfl
  split
  · rfl
  split
  · rfl
  rw [h]
  split
  · rename_i hc
    simp at hc
  split
  · rename_i hc
    simp at hc
  · rfl

/-- Claim C2: a heartbeat whose armed bit equals the stored armed state is
a complete no-op: the state (including the recording_processes dict, so no
start or stop is triggered) and the world are unchanged, hence the stored
armed state toggles only on a genuine bit-level edge. -/
theorem process_heartbeat_duplicate_is_noop (st : RecorderState) (w : World)
    (env : SessionEnv) (msg : MavMessage) (h : armed_bit msg = st.is_armed) :
    process_heartbeat st w env msg = (st, w) :=
  heartbeat_noop_of_equal_bit st w env msg h

/-- Witness for C2: a duplicate armed heartbeat arriving while armed and
recording changes nothing. -/
theorem process_heartbeat_duplicate_is_noop_witness :
    armed_bit fixMsgArm = fixRecordingState.is_armed ∧
    process_heartbeat fixRecordingState fixWorldActiveOnly fixEnv fixMsgArm
      = (fixRecordingState, fixWorldActiveOnly) :=
  ⟨by decide, process_heartbeat_duplicate_is_noop _ _ _ _ (by decide)⟩

/-- Claim C5: stopping an active recording sends SIGINT first, the signal
list is exactly [SIGINT] when the child exits within the 5 second wait
and [SIGINT, SIGTERM] otherwise, and in both cases the RecordingProcess
entry is removed (by the monitor task cleanup). -/
theorem stop_recording_graceful_then_force (st : RecorderState) (name : String)
    (exit_seconds : Nat) (h : name ∈ st.activeNames) :
    (stop_recording_run st name exit_seconds).2.head? = some Sig.sigint ∧
    (stop_recording_run st name exit_seconds).2 =
      (if exit_seconds ≤ STOP_GRACE_TIMEOUT_SECONDS then [Sig.sigint]
       else [Sig.sigint, Sig.sigterm]) ∧
    name ∉ (stop_recording_run st name exit_seconds).1.activeNames := by
  have hany := (any_key_iff st.recording_processes name).mpr h
  refine ⟨?_, ?_, ?_⟩
  · unfold stop_recording_run
    rw [if_pos hany]
    split <;> rfl
  · unfold stop_recording_run
    rw [if_pos hany]
  · rw [stop_recording_run_fst]
    exact stop_recording_not_mem st name

/-- Witness for C5: a slow child (7 seconds) gets SIGINT then SIGTERM and
its entry is gone. -/
theorem stop_recording_graceful_then_force_witness :
    "cam1" ∈ fixRecordingState.activeNames ∧
    (stop_recording_run fixRecordingState "cam1" 7).2 = [Sig.sigint, Sig.sigterm] ∧
    "cam1" ∉ (stop_recording_run fixRecordingState "cam1" 7).1.activeNames := by
  have h : "cam1" ∈ fixRecordingState.activeNames := by decide
  have h2 := stop_recording_graceful_then_force fixRecordingState "cam1" 7 h
  refine ⟨h, ?_, h2.2.2⟩
  rw [h2.2.1]
  decide

/-- Claim C3 is violated by the code: handle_delete_oldest selects the
oldest .mp4 of the video folder with no exclusion of in-progress outputs,
so when the only (hence oldest) .mp4 is the file an active
RecordingProcess is writing, exactly that file is deleted. -/
theorem handle_delete_oldest_deletes_active_output :
    (handle_delete_oldest fixWorldActiveOnly).2.map
        (VideoFile.fullPath fixRecordingState.video_folder)
      = some "/usr/blueos/videos/1_cam1_20250101-000000.mp4" ∧
    "/usr/blueos/videos/1_cam1_20250101-000000.mp4"
      ∈ fixRecordingState.activeOutputFiles ∧
    (handle_delete_oldest fixWorldActiveOnly).1.videoFiles = [] := by
  decide

/-- Counterexample to C4: with out_of_space_action "stop", camA is
admitted and its recording started, then the remediation step invoked
while camB is evaluated (free space dropped below the minimum) stops
camA: camA is among the streams started in the arm session yet holds no
RecordingProcess afterwards, while camB does. -/
theorem stop_remediation_stops_admitted_sibling :
    "camA" ∈ (record_streams fixStopActionState fixWorldDrop
        fixStopActionState.streams "1" "ts").2.2 ∧
    "camA" ∉ (record_streams fixStopActionState fixWorldDrop
        fixStopActionState.streams "1" "ts").1.activeNames ∧
    "camB" ∈ (record_streams fixStopActionState fixWorldDrop
        fixStopActionState.streams "1" "ts").1.activeNames := by
  decide

/-- Claim C4 (amended): when out_of_space_action is delete_oldest_video,
a stream already recording when later streams are evaluated keeps its
RecordingProcess through every later admission denial or remediation
step; only the later stream's own start is affected. (With action "stop"
the remediation terminates every active recording, see the
counterexample.) -/
theorem delete_action_preserves_started_siblings (st : RecorderState)
    (w : World) (l1 l2 : List StreamConfig) (b t : String) (name : String)
    (h : st.out_of_space_action = "delete_oldest_video")
    (hmem : name ∈ (record_streams st w l1 b t).1.activeNames) :
    name ∈ (record_streams st w (l1 ++ l2) b t).1.activeNames := by
  rw [record_streams_append]
  exact record_streams_mono_delete l2 _ _ b t name
    ((record_streams_config l1 st w b t).2.2.1.symm.trans h) hmem

/-- Witness for the amended C4: camA, started first, is still active after
camB is evaluated. -/
theorem delete_action_preserves_started_siblings_witness :
    "camA" ∈ (record_streams fixDeleteActionState fixWorldAmple
        [fixStreamA] "1" "ts").1.activeNames ∧
    "camA" ∈ (record_streams fixDeleteActionState fixWorldAmple
        ([fixStreamA] ++ [fixStreamB]) "1" "ts").1.activeNames :=
  ⟨by decide, delete_action_preserves_started_siblings _ _ [fixStreamA]
    [fixStreamB] "1" "ts" "camA" (by decide) (by decide)⟩

/-- Claim C7: for an enabled stream under admission, the remediation
action runs at most 10 times, with a fresh free-space reading before
each invocation and one final re-check (exactly calls + 1 readings are
consumed); when the final re-check still reads below the minimum, the
stream's recording is not started (the state stays exactly the post-loop
state, no entry is added), and the remaining streams are evaluated from
that state. -/
theorem space_admission_bounded_retries (st : RecorderState) (w : World)
    (stream : StreamConfig) (rest : List StreamConfig) (b t : String)
    (h : stream.enabled.getD false = true) :
    (space_retry_loop st w SPACE_RETRY_LIMIT).2.2 ≤ SPACE_RETRY_LIMIT ∧
    (space_retry_loop st w SPACE_RETRY_LIMIT).2.1.freeReads =
      w.freeReads.drop ((space_retry_loop st w SPACE_RETRY_LIMIT).2.2 + 1) ∧
    ((space_retry_loop st w SPACE_RETRY_LIMIT).2.1.freeReads.headD 0 <
        (space_retry_loop st w SPACE_RETRY_LIMIT).1.minimum_free_space_mb →
      (evaluate_stream st w stream b t).1 =
        (space_retry_loop st w SPACE_RETRY_LIMIT).1) ∧
    (record_streams st w (stream :: rest) b t).1 =
      (record_streams (evaluate_stream st w stream b t).1
        (evaluate_stream st w stream b t).2.1 rest b t).1 := by
  refine ⟨space_retry_loop_calls_le _ _ _, space_retry_loop_reads _ _ _, ?_, ?_⟩
  · intro hlow
    simp only [evaluate_stream, h, if_true, get_free_space_mb]
    rw [if_neg (not_le.mpr hlow)]
  · simp only [record_streams]

/-- Witness for C7: with every reading zero and the minimum at 1024 MB,
the loop performs its bounded retries, the stream is denied and not
started, and evaluation proceeds to the next stream. -/
theorem space_admission_bounded_retries_witness :
    (space_retry_loop fixDeleteActionState fixWorldEmptyDisk
        SPACE_RETRY_LIMIT).2.2 ≤ SPACE_RETRY_LIMIT ∧
    (evaluate_stream fixDeleteActionState fixWorldEmptyDisk fixStreamA
        "1" "ts").1 =
      (space_retry_loop fixDeleteActionState fixWorldEmptyDisk
        SPACE_RETRY_LIMIT).1 ∧
    (record_streams fixDeleteActionState fixWorldEmptyDisk
        (fixStreamA :: [fixStreamB]) "1" "ts").1 =
      (record_streams (evaluate_stream fixDeleteActionState fixWorldEmptyDisk
          fixStreamA "1" "ts").1
        (evaluate_stream fixDeleteActionState fixWorldEmptyDisk fixStreamA
          "1" "ts").2.1 [fixStreamB] "1" "ts").1 := by
  have h := space_admission_bounded_retries fixDeleteActionState
    fixWorldEmptyDisk fixStreamA [fixStreamB] "1" "ts" (by decide)
  exact ⟨h.1, h.2.2.1 (by decide), h.2.2.2⟩

/-- Claim C6: after the 3 second grace period the verification task
performs at most 10 checks, 3 seconds apart (check i happens at
verify_check_time i); it stops at the first check observing a file with
nonzero size, with no state change; and when all 10 checks are exhausted
without a nonzero file, the child is stopped and no RecordingProcess
entry remains for the stream. -/
theorem verify_recording_start_bounded_checks (st : RecorderState)
    (name : String) (obs : Nat → Option Nat)
    (hfail : ∀ i, i < VERIFY_MAX_CHECKS → (obs i).getD 0 = 0) :
    (verify_go obs 0 VERIFY_MAX_CHECKS).2 = VERIFY_MAX_CHECKS ∧
    name ∉ (verify_recording_start st name obs).1.activeNames ∧
    (name ∈ st.activeNames → (verify_recording_start st name obs).2 = true) ∧
    (∀ obs2 : Nat → Option Nat,
      (verify_go obs2 0 VERIFY_MAX_CHECKS).2 ≤ VERIFY_MAX_CHECKS) ∧
    (∀ obs2 : Nat → Option Nat, ∀ k, k < VERIFY_MAX_CHECKS →
      0 < (obs2 k).getD 0 → (∀ j, j < k → (obs2 j).getD 0 = 0) →
      verify_go obs2 0 VERIFY_MAX_CHECKS = (some k, k + 1) ∧
      ∀ st2 name2, verify_recording_start st2 name2 obs2 = (st2, false)) ∧
    verify_check_time 0 = VERIFY_GRACE_SECONDS ∧
    (∀ i, verify_check_time (i + 1) =
      verify_check_time i + VERIFY_INTERVAL_SECONDS) := by
  have hnone : verify_go obs 0 VERIFY_MAX_CHECKS = (none, VERIFY_MAX_CHECKS) :=
    verify_go_fail obs VERIFY_MAX_CHECKS 0 (fun j hj => by simpa using hfail j hj)
  refine ⟨by rw [hnone], ?_, ?_, ?_, ?_, ?_, ?_⟩
  · simp only [verify_recording_start, hnone]
    split
    · exact stop_recording_not_mem st name
    · rename_i hany
      intro hmem
      exact hany ((any_key_iff _ _).mpr hmem)
  · intro hmem
    simp only [verify_recording_start, hnone]
    rw [if_pos ((any_key_iff _ _).mpr hmem)]
  · exact fun obs2 => verify_go_checks_le obs2 VERIFY_MAX_CHECKS 0
  · intro obs2 k hk hs hf
    have hfirst : verify_go obs2 0 VERIFY_MAX_CHECKS = (some (0 + k), k + 1) :=
      verify_go_first_success obs2 VERIFY_MAX_CHECKS 0 k hk
        (by simpa using hs) (fun j hj => by simpa using hf j hj)
    rw [Nat.zero_add] at hfirst
    refine ⟨hfirst, ?_⟩
    intro st2 name2
    simp [verify_recording_start, hfirst]
  · simp [verify_check_time]
  · intro i
    simp [verify_check_time, Nat.mul_succ, Nat.add_assoc]

/-- Witness for C6: observations that never report data exhaust the 10
checks, the child is stopped and the cam1 entry is gone. -/
theorem verify_recording_start_bounded_checks_witness :
    (verify_go fixObsNever 0 VERIFY_MAX_CHECKS).2 = VERIFY_MAX_CHECKS ∧
    "cam1" ∉ (verify_recording_start fixRecordingState "cam1"
        fixObsNever).1.activeNames ∧
    (verify_recording_start fixRecordingState "cam1" fixObsNever).2 = true := by
  have h := verify_recording_start_bounded_checks fixRecordingState "cam1"
    fixObsNever (fun i _ => rfl)
  exact ⟨h.1, h.2.1, h.2.2.1 (by decide)⟩

/-- Counterexample to C8: a settings update that keeps cam1 but flips it
to enabled=false while cam1 is recording leaves, at the stable point
after the update, a RecordingProcess for a stream that is not enabled:
entry existence is not equivalent to enabled AND Armed AND admitted. -/
theorem settings_update_keeps_disabled_stream_recording :
    "cam1" ∈ (handle_settings_update fixRecordingState
        fixDisableUpdate).activeNames ∧
    (handle_settings_update fixRecordingState fixDisableUpdate).streams =
      [{ name := "cam1", url := "rtsp://cam1", enabled := some false }] ∧
    (handle_settings_update fixRecordingState fixDisableUpdate).is_armed
      = true := by
  decide

/-- Claim C8 (amended): on an ArmedEdge session start (no active
recordings) with out_of_space_action delete_oldest_video, an entry exists
for a name after the streams are evaluated iff that name was started (its
stream was enabled and its admission re-check passed), and every started
name belongs to an enabled configured stream — in particular a stream
with enabled=false or a missing flag never gains an entry. A settings
update, by contrast, stops only streams removed by name (a stream kept
but switched to enabled=false keeps its entry — see the counterexample),
and with action "stop" a later sibling's remediation removes entries
(see the C4 counterexample). -/
theorem armed_edge_entries_iff_started (st : RecorderState) (w : World)
    (b t : String)
    (hact : st.out_of_space_action = "delete_oldest_video")
    (hempty : st.recording_processes = []) :
    (∀ name, name ∈ (record_streams st w st.streams b t).1.activeNames ↔
      name ∈ (record_streams st w st.streams b t).2.2) ∧
    (∀ name ∈ (record_streams st w st.streams b t).2.2,
      ∃ s ∈ st.streams, s.name = name ∧ s.enabled.getD false = true) := by
  constructor
  · intro name
    rw [record_streams_mem_delete st.streams st w b t name hact]
    have hnil : st.activeNames = [] := by
      simp [RecorderState.activeNames, hempty]
    rw [hnil]
    simp
  · exact fun name hm =>
      record_streams_started_enabled st.streams st w b t name hm

/-- Witness for the amended C8: camA is started and holds an entry in the
clean armed-edge session. -/
theorem armed_edge_entries_iff_started_witness :
    ("camA" ∈ (record_streams fixDeleteActionState fixWorldAmple
        fixDeleteActionState.streams "1" "ts").1.activeNames ↔
      "camA" ∈ (record_streams fixDeleteActionState fixWorldAmple
        fixDeleteActionState.streams "1" "ts").2.2) ∧
    (∃ s ∈ fixDeleteActionState.streams,
      s.name = "camA" ∧ s.enabled.getD false = true) := by
  have h := armed_edge_entries_iff_started fixDeleteActionState fixWorldAmple
    "1" "ts" (by decide) (by decide)
  exact ⟨h.1 "camA", h.2 "camA" (by decide)⟩

/-- Claim C9: process_heartbeat changes the orchestrator state only for
HEARTBEAT messages from one of the three recognized autopilot kinds with
one of the seven recognized vehicle kinds (everything else is discarded
with no state change, which is the contrapositive proved here), and for
an accepted message that acts, the resulting armed flag is exactly bit 7
(mask 0x80) of the base_mode bitmask. -/
theorem process_heartbeat_filters_and_armed_bit (st : RecorderState)
    (w : World) (env : SessionEnv) (msg : MavMessage)
    (h : process_heartbeat st w env msg ≠ (st, w)) :
    msg.msgType = some "HEARTBEAT" ∧
    (msg.autopilotType = some "MAV_AUTOPILOT_GENERIC" ∨
     msg.autopilotType = some "MAV_AUTOPILOT_ARDUPILOTMEGA" ∨
     msg.autopilotType = some "MAV_AUTOPILOT_PX4") ∧
    (∃ v ∈ vehicle_types, msg.mavtypeType = some v) ∧
    (process_heartbeat st w env msg).1.is_armed =
      (msg.baseModeBits.getD 0).testBit 7 := by
  by_cases h1 : msg.msgType = some "HEARTBEAT"
  case neg => exact absurd (by simp [process_heartbeat, h1]) h
  by_cases h2 : msg.autopilotType ∈ valid_autopilots.map some
  case neg => exact absurd (by simp only [process_heartbeat,
    if_neg (not_not_intro h1), if_pos h2]) h
  by_cases h3 : msg.mavtypeType ∈ vehicle_types.map some
  case neg => exact absurd (by simp only [process_heartbeat,
    if_neg (not_not_intro h1), if_neg (not_not_intro h2), if_pos h3]) h
  have hedge : armed_bit msg ≠ st.is_armed := fun heq =>
    h (heartbeat_noop_of_equal_bit st w env msg heq)
  refine ⟨h1, ?_, ?_, ?_⟩
  · simpa [valid_autopilots] using h2
  · obtain ⟨v, hv, heq⟩ := List.mem_map.mp h3
    exact ⟨v, hv, heq.symm⟩
  · rw [← armed_bit_testBit]
    simp only [process_heartbeat, if_neg (not_not_intro h1),
      if_neg (not_not_intro h2), if_neg (not_not_intro h3)]
    cases hb : armed_bit msg <;> cases hst : st.is_armed
    · rw [hb, hst] at hedge
      exact absurd rfl hedge
    · simp only [hb, hst, Bool.not_true, Bool.and_false, Bool.false_and,
        Bool.not_false, Bool.and_true, if_false, if_true]
      have := (foldl_stop_config
        (List.map Prod.fst ({ st with is_armed := false }).recording_processes)
        { st with is_armed := false }).2.2.2.2
      simpa using this.symm
    · simp only [hb, hst, Bool.not_false, Bool.and_true, if_true]
      split
      · have := (record_streams_config ({ st with is_armed := true }).streams
          { st with is_armed := true } w (compute_base_filename env w)
          env.timestamp).2.2.2.2
        simpa using this.symm
      · rfl
    · rw [hb, hst] at hedge
      exact absurd rfl hedge

/-- Witness for C9: an accepted arming heartbeat changes the state, and
the flag it leaves equals bit 7 of its mode bits. -/
theorem process_heartbeat_filters_and_armed_bit_witness :
    fixMsgArm.msgType = some "HEARTBEAT" ∧
    (∃ v ∈ vehicle_types, fixMsgArm.mavtypeType = some v) ∧
    (process_heartbeat fixStopActionState fixWorldAmple fixEnv
        fixMsgArm).1.is_armed =
      (fixMsgArm.baseModeBits.getD 0).testBit 7 := by
  have h := process_heartbeat_filters_and_armed_bit fixStopActionState
    fixWorldAmple fixEnv fixMsgArm (by decide)
  exact ⟨h.1, h.2.2.1, h.2.2.2⟩

theorem handle_settings_update_streams (st2 : RecorderState)
    (upd : SettingsUpdate) (l : List StreamConfig)
    (h2 : upd.streams = some l) :
    (handle_settings_update st2 upd).streams =
      l.map (fun s =>
        if s.enabled.isNone then { s with enabled := some true } else s) := by
  simp only [handle_settings_update, h2]

/-- Claim C10: on an arm edge, a configured stream whose settings entry
lacks the enabled key is skipped (its evaluation is the identity and
starts nothing: the recording path treats a missing flag as disabled),
even though fetch_camera_streams imports every stream with enabled=true
and handle_settings_update defaults a missing enabled key to true when
saving. -/
theorem missing_enabled_flag_semantics (st : RecorderState) (w : World)
    (s : StreamConfig) (b t : String) (raws : List RawCameraStream)
    (st2 : RecorderState) (upd : SettingsUpdate) (l : List StreamConfig)
    (h1 : s.enabled = none) (h2 : upd.streams = some l) :
    evaluate_stream st w s b t = (st, w, false) ∧
    (∀ r ∈ fetch_camera_streams raws, r.enabled = some true) ∧
    (∀ s2 ∈ (handle_settings_update st2 upd).streams,
      s2.enabled.isSome = true) ∧
    (∀ s0 ∈ l, s0.enabled = none →
      { s0 with enabled := some true } ∈
        (handle_settings_update st2 upd).streams) := by
  refine ⟨?_, ?_, ?_, ?_⟩
  · simp [evaluate_stream, h1]
  · intro r hr
    simp only [fetch_camera_streams, List.mem_map] at hr
    obtain ⟨r0, _, heq⟩ := hr
    rw [← heq]
  · intro s2 hs2
    rw [handle_settings_update_streams st2 upd l h2] at hs2
    obtain ⟨s0, _, heq⟩ := List.mem_map.mp hs2
    cases hse : s0.enabled with
    | none =>
      rw [← heq]
      simp [hse]
    | some bv =>
      rw [← heq]
      simp [hse]
  · intro s0 hs0 hs0e
    rw [handle_settings_update_streams st2 upd l h2]
    have hm := List.mem_map_of_mem (fun s =>
      if s.enabled.isNone then { s with enabled := some true } else s) hs0
    simpa [hs0e] using hm

/-- Witness for C10: camD (no enabled key) is skipped on an arm edge, the
camera-manager import carries enabled=true, and saving camD through the
settings update stores it with enabled=true. -/
theorem missing_enabled_flag_semantics_witness :
    evaluate_stream fixRecordingState fixWorldAmple fixStreamNoFlag "1" "ts"
      = (fixRecordingState, fixWorldAmple, false) ∧
    (fetch_camera_streams fixRaws).map (fun s => s.enabled) = [some true] ∧
    { name := "camD", url := "rtsp://d", enabled := some true }
      ∈ (handle_settings_update fixRecordingState fixNoFlagUpdate).streams := by
  have h := missing_enabled_flag_semantics fixRecordingState fixWorldAmple
    fixStreamNoFlag "1" "ts" fixRaws fixRecordingState fixNoFlagUpdate
    [fixStreamNoFlag] rfl rfl
  refine ⟨h.1, by decide, ?_⟩
  exact h.2.2.2 fixStreamNoFlag (by decide) rfl
